import Mathlib

/-!
# Verification development for `src/backend/index.js`

The backend is a set of Express handlers over a MySQL store.  The handlers are
embedded as pure functions from a store state (and the request) to a new store
state and an outcome.  Two things the handlers rely on are not repository
code:

* the JavaScript `Date` built-in, embedded here after the ECMAScript
  definitions (`Day`, `WeekDay`, `MakeDay`, `TimeClip`, `setDate`, ...);
* the MySQL tables, whose declarations are not among the sources and are
  modelled from the specification (uniqueness constraints, column defaults).
-/

namespace Backend

/-! ## ECMAScript time values -/

/-- Milliseconds in a day (ECMAScript `msPerDay`). -/
def msPerDay : Int := 86400000

/-- Largest magnitude of a valid time value: 8.64e15 ms. -/
def maxTime : Int := 8640000000000000

/-- ECMAScript `Day(t) = floor(t / msPerDay)`. -/
def Day (t : Int) : Int := t / msPerDay

/-- ECMAScript `TimeWithinDay(t) = t modulo msPerDay`. -/
def TimeWithinDay (t : Int) : Int := t % msPerDay

/-- ECMAScript `DaysInYear(y)`. -/
def DaysInYear (y : Int) : Int :=
  if y % 4 ≠ 0 then 365
  else if y % 100 ≠ 0 then 366
  else if y % 400 ≠ 0 then 365
  else 366

/-- ECMAScript `DayFromYear(y)`: day number of the first day of year `y`. -/
def DayFromYear (y : Int) : Int :=
  365 * (y - 1970) + (y - 1969) / 4 - (y - 1901) / 100 + (y - 1601) / 400

/-- ECMAScript `YearFromTime(t)`: the largest `y` with
`DayFromYear y * msPerDay ≤ t`, found from an estimate by the mean year length
(146097 days in 400 years) and one correction step. -/
def YearFromTime (t : Int) : Int :=
  let d := Day t
  let y := 1970 + (d * 400) / 146097
  if DayFromYear (y + 1) ≤ d then y + 1
  else if d < DayFromYear y then y - 1
  else y

/-- ECMAScript `InLeapYear(t)`: 1 in a leap year, 0 otherwise. -/
def InLeapYear (t : Int) : Int :=
  if DaysInYear (YearFromTime t) = 365 then 0 else 1

/-- ECMAScript `DayWithinYear(t)`. -/
def DayWithinYear (t : Int) : Int := Day t - DayFromYear (YearFromTime t)

/-- The table of ECMAScript `MonthFromTime`: the month (0 January ... 11
December) of day `d` of a year, `l` being 1 in a leap year and 0 otherwise. -/
def monthOfDay (d l : Int) : Int :=
  if d < 31 then 0
  else if d < 59 + l then 1
  else if d < 90 + l then 2
  else if d < 120 + l then 3
  else if d < 151 + l then 4
  else if d < 181 + l then 5
  else if d < 212 + l then 6
  else if d < 243 + l then 7
  else if d < 273 + l then 8
  else if d < 304 + l then 9
  else if d < 334 + l then 10
  else 11

/-- ECMAScript `MonthFromTime(t)`: 0 for January ... 11 for December. -/
def MonthFromTime (t : Int) : Int := monthOfDay (DayWithinYear t) (InLeapYear t)

/-- Days of the year before the first day of month `m` (0-based), `l` being 1
in a leap year: the offsets of the ECMAScript `DateFromTime` table. -/
def daysBeforeMonth (m l : Int) : Int :=
  if m = 0 then 0
  else if m = 1 then 31
  else if m = 2 then 59 + l
  else if m = 3 then 90 + l
  else if m = 4 then 120 + l
  else if m = 5 then 151 + l
  else if m = 6 then 181 + l
  else if m = 7 then 212 + l
  else if m = 8 then 243 + l
  else if m = 9 then 273 + l
  else if m = 10 then 304 + l
  else 334 + l

/-- ECMAScript `DateFromTime(t)`: day of the month, 1-based. -/
def DateFromTime (t : Int) : Int :=
  DayWithinYear t - daysBeforeMonth (MonthFromTime t) (InLeapYear t) + 1

/-- ECMAScript `WeekDay(t) = (Day(t) + 4) modulo 7`: 0 Sunday ... 6 Saturday. -/
def WeekDay (t : Int) : Int := (Day t + 4) % 7

/-- ECMAScript `MakeDay(year, month, date)` on integral arguments. -/
def MakeDay (year month date : Int) : Int :=
  let ym := year + month / 12
  let mn := month % 12
  let l : Int := if DaysInYear ym = 365 then 0 else 1
  DayFromYear ym + daysBeforeMonth mn l + date - 1

/-- ECMAScript `MakeDate(day, time)`. -/
def MakeDate (day time : Int) : Int := day * msPerDay + time

/-- ECMAScript `TimeClip`: `none` stands for NaN. -/
def TimeClip (t : Int) : Option Int :=
  if t.natAbs > maxTime.natAbs then none else some t

/-! ## The `Date` object -/

/-- What the handlers take from the JavaScript runtime and its environment:
the offset of the server's local time zone from UTC in milliseconds (taken as
constant, i.e. a zone without daylight-saving changes) and the built-in
`Date.parse`, whose result `none` stands for NaN. -/
structure Runtime where
  localTZA : Int
  dateParse : String → Option Int

/-- The `[[DateValue]]` of a `Date` object; `none` is NaN (an invalid date). -/
abbrev JsDate := Option Int

/-- ECMAScript `LocalTime(t)`. -/
def LocalTime (rt : Runtime) (t : Int) : Int := t + rt.localTZA

/-- ECMAScript `UTC(t)`. -/
def UTC (rt : Runtime) (t : Int) : Int := t - rt.localTZA

/-- A date-valued request field as JSON delivers it: a number (taken as
integral) or a string. -/
inductive DateArg where
  | millis (n : Int)
  | text (s : String)
  deriving DecidableEq, Repr

/-- JavaScript truthiness of a present date field: `0` and `""` are falsy. -/
def DateArg.truthy : DateArg → Bool
  | .millis n => decide (n ≠ 0)
  | .text s => decide (s ≠ "")

/-- The expression `new Date(value)` for a number or a string. -/
def newDate (rt : Runtime) : DateArg → JsDate
  | .millis n => TimeClip n
  | .text s => (rt.dateParse s).bind TimeClip

/-- The expression `field ? new Date(field) : new Date()` of both handlers;
`now` is the server clock. -/
def dateOrNow (rt : Runtime) (now : Int) (field : Option DateArg) : JsDate :=
  match field with
  | some v => if v.truthy then newDate rt v else TimeClip now
  | none => TimeClip now

/-- Method `Date.prototype.getDay()`: weekday in local time, NaN on an invalid date. -/
def getDay (rt : Runtime) (d : JsDate) : Option Int :=
  d.map fun t => WeekDay (LocalTime rt t)

/-- Method `Date.prototype.getDate()`: day of the month in local time. -/
def getDate (rt : Runtime) (d : JsDate) : Option Int :=
  d.map fun t => DateFromTime (LocalTime rt t)

/-- Method `Date.prototype.setDate(date)`: the new `[[DateValue]]`. -/
def setDate (rt : Runtime) (d : JsDate) (date : Option Int) : JsDate :=
  match d, date with
  | some t, some dt =>
    let lt := LocalTime rt t
    let newDate := MakeDate (MakeDay (YearFromTime lt) (MonthFromTime lt) dt) (TimeWithinDay lt)
    TimeClip (UTC rt newDate)
  | _, _ => none

/-- The value of `date.toISOString().slice(0, 10)`, by its fields instead of
its characters.  Years 0 to 9999 are printed with four digits, so the slice is
`YYYY-MM-DD`; any other year is printed with a sign and six digits, and the
slice stops after the month. -/
inductive SqlDate where
  | ymd (year month day : Int)
  | extended (year month : Int)
  deriving DecidableEq, Repr

/-- First ten characters of the ISO string of a valid time value (UTC). -/
def isoSlice (t : Int) : SqlDate :=
  let y := YearFromTime t
  if 0 ≤ y ∧ y ≤ 9999 then .ymd y (MonthFromTime t + 1) (DateFromTime t)
  else .extended y (MonthFromTime t + 1)

/-- The expression `d.toISOString().slice(0, 10)`; `none` means that
`toISOString` threw `RangeError: Invalid time value`. -/
def toISOStringSlice (d : JsDate) : Option SqlDate := d.map isoSlice

/-- Weekday (0 Sunday ... 6 Saturday) of the calendar date a `YYYY-MM-DD`
value names. -/
def SqlDate.weekday : SqlDate → Option Int
  | .ymd y m d => some (WeekDay (MakeDate (MakeDay y (m - 1) d) 0))
  | .extended _ _ => none

/-- Day number (days since 1970-01-01) of the calendar date a `YYYY-MM-DD`
value names. -/
def SqlDate.dayNumber : SqlDate → Option Int
  | .ymd y m d => some (MakeDay y (m - 1) d)
  | .extended _ _ => none

/-- The week-start arithmetic of `app.post('/perception')`:
`start = new Date(week);
 start.setDate(start.getDate() - (start.getDay() === 0 ? 6 : start.getDay() - 1))`. -/
def weekStartOf (rt : Runtime) (week : JsDate) : JsDate :=
  let start : JsDate := week
  let back : Option Int :=
    if getDay rt start = some 0 then some 6 else (getDay rt start).map (· - 1)
  let arg : Option Int :=
    match getDate rt start, back with
    | some a, some b => some (a - b)
    | _, _ => none
  setDate rt start arg

/-! ## The store

The table declarations are not part of the sources.  Rows carry the columns
the statements of `index.js` read and write; constraints and defaults follow
the specification.  A statement fails only by violating a constraint: a lost
connection or a timeout is outside the model. -/

/-- Row of `users`. -/
structure User where
  id : Nat
  role : String
  name : String
  email : String
  password_hash : String
  deriving DecidableEq, Repr

/-- Row of `groups`. -/
structure Group where
  id : Nat
  code : String
  name : String
  tutor_id : Nat
  term : String
  deriving DecidableEq, Repr

/-- Row of `group_members`. -/
structure GroupMember where
  id : Nat
  group_id : Nat
  student_id : Nat
  term : String
  deriving DecidableEq, Repr

/-- Row of `mood_logs`. -/
structure MoodLog where
  id : Nat
  student_id : Nat
  logged_date : SqlDate
  mood : String
  note : Option String
  deriving DecidableEq, Repr

/-- Row of `weekly_perceptions`. -/
structure WeeklyPerception where
  id : Nat
  student_id : Nat
  subject : String
  week_start : SqlDate
  emotion : String
  notes : Option String
  deriving DecidableEq, Repr

/-- Row of `justifications`. -/
structure Justification where
  id : Nat
  student_id : Nat
  group_id : Nat
  type : String
  evidence_url : Option String
  status : String
  created_at : Int
  deriving DecidableEq, Repr

/-- Row of `alerts`. -/
structure Alert where
  id : Nat
  student_id : Nat
  type : String
  severity : String
  message : String
  created_at : Int
  deriving DecidableEq, Repr

/-- The tables the embedded handlers touch, each in insertion order. -/
structure Store where
  users : List User
  groups : List Group
  group_members : List GroupMember
  mood_logs : List MoodLog
  weekly_perceptions : List WeeklyPerception
  justifications : List Justification
  alerts : List Alert
  deriving DecidableEq, Repr

/-- The store with every table empty. -/
def Store.empty : Store := ⟨[], [], [], [], [], [], []⟩

/-- What a failed statement reports: `e.code === 'ER_DUP_ENTRY'`, or anything
else. -/
inductive DbError where
  | dupEntry
  | other
  deriving DecidableEq, Repr

/-- Value of an `AUTO_INCREMENT` key for the next row: one more than the
largest key present. -/
def nextId (ids : List Nat) : Nat := ids.foldr max 0 + 1

/-- Modelled from the spec: the declaration of `users` is missing; the
specification gives it a unique `email`.  The statement is
`INSERT INTO users (role, name, email, password_hash) VALUES (?, ?, ?, ?)`;
the result carries `insertId`. -/
def insertUser (s : Store) (role name email password : String) :
    Except DbError (Store × Nat) :=
  if s.users.any (fun u => decide (u.email = email)) then .error .dupEntry
  else
    let id := nextId (s.users.map (·.id))
    .ok ({ s with users := s.users ++ [⟨id, role, name, email, password⟩] }, id)

/-- Modelled from the spec: the declaration of `groups` is missing; the
specification gives it a unique `code`.  The statement is
`INSERT INTO groups (code, name, tutor_id, term) VALUES (?, ?, ?, ?)`. -/
def insertGroup (s : Store) (code name : String) (tutorId : Nat) (term : String) :
    Except DbError (Store × Nat) :=
  if s.groups.any (fun g => decide (g.code = code)) then .error .dupEntry
  else
    let id := nextId (s.groups.map (·.id))
    .ok ({ s with groups := s.groups ++ [⟨id, code, name, tutorId, term⟩] }, id)

/-- Modelled from the spec: the declaration of `group_members` is missing; the
specification makes (group_id, student_id, term) unique.  The statement is
`INSERT INTO group_members (group_id, student_id, term) VALUES (?, ?, ?)`. -/
def insertGroupMember (s : Store) (groupId studentId : Nat) (term : String) :
    Except DbError Store :=
  if s.group_members.any
      (fun m => decide (m.group_id = groupId ∧ m.student_id = studentId ∧ m.term = term))
  then .error .dupEntry
  else
    let id := nextId (s.group_members.map (·.id))
    .ok { s with group_members := s.group_members ++ [⟨id, groupId, studentId, term⟩] }

/-- Modelled from the spec: the declaration of `mood_logs` is missing; the
specification makes (student_id, logged_date) unique.  The statement is
`INSERT INTO mood_logs (student_id, logged_date, mood, note) VALUES (?, ?, ?, ?)`. -/
def insertMoodLog (s : Store) (studentId : Nat) (sqlDate : SqlDate) (mood : String)
    (note : Option String) : Except DbError Store :=
  if s.mood_logs.any (fun r => decide (r.student_id = studentId ∧ r.logged_date = sqlDate))
  then .error .dupEntry
  else
    let id := nextId (s.mood_logs.map (·.id))
    .ok { s with mood_logs := s.mood_logs ++ [⟨id, studentId, sqlDate, mood, note⟩] }

/-- Modelled from the spec: the declaration of `weekly_perceptions` is missing;
the specification makes (student_id, subject, week_start) unique.  The
statement is `INSERT INTO weekly_perceptions (student_id, subject, week_start,
emotion, notes) VALUES (?, ?, ?, ?, ?)`. -/
def insertWeeklyPerception (s : Store) (studentId : Nat) (subject : String)
    (sqlDate : SqlDate) (emotion : String) (notes : Option String) : Except DbError Store :=
  if s.weekly_perceptions.any
      (fun r => decide (r.student_id = studentId ∧ r.subject = subject ∧ r.week_start = sqlDate))
  then .error .dupEntry
  else
    let id := nextId (s.weekly_perceptions.map (·.id))
    .ok { s with weekly_perceptions :=
            s.weekly_perceptions ++ [⟨id, studentId, subject, sqlDate, emotion, notes⟩] }

/-- Modelled from the spec: the declaration of `alerts` is missing; no
constraint is specified, `created_at` is filled by the store (`ts` is its
clock).  The statement is
`INSERT INTO alerts (student_id, type, severity, message) VALUES (?, ?, ?, ?)`. -/
def insertAlert (s : Store) (ts : Int) (studentId : Nat) (type severity message : String) :
    Store :=
  let id := nextId (s.alerts.map (·.id))
  { s with alerts := s.alerts ++ [⟨id, studentId, type, severity, message, ts⟩] }

/-- Modelled from the spec: the declaration of `justifications` is missing; the
specification has a new row start with status "pending", the statement names
no status; `created_at` is filled by the store (`ts` is its clock).  The
statement is `INSERT INTO justifications (student_id, group_id, type,
evidence_url) VALUES (?, ?, ?, ?)`. -/
def insertJustification (s : Store) (ts : Int) (studentId groupId : Nat) (type : String)
    (evidenceUrl : Option String) : Store :=
  let id := nextId (s.justifications.map (·.id))
  { s with justifications :=
      s.justifications ++ [⟨id, studentId, groupId, type, evidenceUrl, "pending", ts⟩] }

/-- The JavaScript expression `x || null` on an optional string. -/
def orNull (x : Option String) : Option String :=
  match x with
  | some v => if v = "" then none else some v
  | none => none

/-! ## Handler outcomes -/

/-- How a handler run ends: `res.json(body)` (status 200),
`res.status(code).json(...)`, or an exception that leaves the handler. -/
inductive Outcome (β : Type) where
  | json (body : β)
  | status (code : Nat)
  | uncaught
  deriving DecidableEq, Repr

/-- HTTP status of an outcome, if a response was sent. -/
def Outcome.code {β : Type} : Outcome β → Option Nat
  | .json _ => some 200
  | .status c => some c
  | .uncaught => none

/-! ## The handlers

Required body fields are typed as the store expects them; the falsy values a
`!field` check rejects are `0` for an id and `""` for a string.  A query
parameter is `none` when absent or empty. -/

/-- The object `{ id, role, name, email }` both auth routes answer with. -/
structure UserView where
  id : Nat
  role : String
  name : String
  email : String
  deriving DecidableEq, Repr

/-- Handler `app.post('/auth/register')`. -/
def postAuthRegister (s : Store) (role name email password : String) :
    Store × Outcome UserView :=
  if role = "" ∨ name = "" ∨ email = "" ∨ password = "" then (s, .status 400)
  else
    let found := s.users.filter (fun u => decide (u.email = email))
    if found.length ≠ 0 then (s, .status 409)
    else
      match insertUser s role name email password with
      | .ok (s1, insertId) => (s1, .json ⟨insertId, role, name, email⟩)
      | .error _ => (s, .status 500)

/-- Handler `app.post('/auth/login')`. -/
def postAuthLogin (s : Store) (email password : String) : Store × Outcome UserView :=
  if email = "" ∨ password = "" then (s, .status 400)
  else
    let rows : List UserView :=
      (s.users.filter (fun u => decide (u.email = email ∧ u.password_hash = password))).map
        (fun u => ⟨u.id, u.role, u.name, u.email⟩)
    match rows with
    | [] => (s, .status 401)
    | r :: _ => (s, .json r)

/-- The object `{ id, code, name }` of `app.post('/groups')`. -/
structure GroupCreated where
  id : Nat
  code : String
  name : String
  deriving DecidableEq, Repr

/-- Handler `app.post('/groups')`; `term` defaults to "2024". -/
def postGroups (s : Store) (tutorId : Nat) (name code : String) (term : Option String) :
    Store × Outcome GroupCreated :=
  let term := term.getD "2024"
  if tutorId = 0 ∨ name = "" ∨ code = "" then (s, .status 400)
  else
    let found := s.groups.filter (fun g => decide (g.code = code))
    if found.length ≠ 0 then (s, .status 409)
    else
      match insertGroup s code name tutorId term with
      | .ok (s1, insertId) => (s1, .json ⟨insertId, code, name⟩)
      | .error _ => (s, .status 500)

/-- Handler `app.post('/groups/join')`; the body answered is `groupId`. -/
def postGroupsJoin (s : Store) (studentId : Nat) (groupCode : String) (term : Option String) :
    Store × Outcome Nat :=
  let term := term.getD "2024"
  if studentId = 0 ∨ groupCode = "" then (s, .status 400)
  else
    match s.groups.filter (fun g => decide (g.code = groupCode)) with
    | [] => (s, .status 404)
    | group :: _ =>
      match insertGroupMember s group.id studentId term with
      | .ok s1 => (s1, .json group.id)
      | .error e => if e = .dupEntry then (s, .status 409) else (s, .status 500)

/-- Row of the batched membership lookup of `app.get('/groups')`:
`gm.group_id, u.id as studentId, u.name`. -/
structure MemberRow where
  group_id : Nat
  studentId : Nat
  name : String
  deriving DecidableEq, Repr

/-- The object `{ id, name }` of one student in a group listing. -/
structure StudentRef where
  id : Nat
  name : String
  deriving DecidableEq, Repr

/-- A group of the listing: `{ ...g, students }`. -/
structure GroupView where
  id : Nat
  code : String
  name : String
  students : List StudentRef
  deriving DecidableEq, Repr

/-- The query `SELECT gm.group_id, u.id as studentId, u.name FROM group_members gm
JOIN users u ON u.id = gm.student_id WHERE gm.group_id IN (ids)`. -/
def selectMembers (s : Store) (ids : List Nat) : List MemberRow :=
  s.group_members.flatMap fun gm =>
    if gm.group_id ∈ ids then
      (s.users.filter (fun u => decide (u.id = gm.student_id))).map
        (fun u => ⟨gm.group_id, u.id, u.name⟩)
    else []

/-- The query `SELECT id, code, name FROM groups WHERE tutor_id = ?`. -/
def selectGroupsOfTutor (s : Store) (tutorId : Nat) : List Group :=
  s.groups.filter (fun g => decide (g.tutor_id = tutorId))

/-- The client-side grouping of `app.get('/groups')`:
`groups.map(g => ({...g, students: members.filter(m => m.group_id === g.id)
.map(m => ({ id: m.studentId, name: m.name }))}))`. -/
def withCounts (groups : List Group) (members : List MemberRow) : List GroupView :=
  groups.map fun g =>
    ⟨g.id, g.code, g.name,
      (members.filter (fun m => decide (m.group_id = g.id))).map (fun m => ⟨m.studentId, m.name⟩)⟩

/-- Handler `app.get('/groups')`. -/
def getGroups (s : Store) (tutorId : Option Nat) : Store × Outcome (List GroupView) :=
  match tutorId with
  | none => (s, .status 400)
  | some tutorId =>
    let groups := selectGroupsOfTutor s tutorId
    let ids := groups.map (·.id)
    let members : List MemberRow := if ids.length ≠ 0 then selectMembers s ids else []
    (s, .json (withCounts groups members))

/-- Handler `app.post('/mood')`. -/
def postMood (rt : Runtime) (now : Int) (s : Store) (studentId : Nat) (mood : String)
    (note : Option String) (loggedDate : Option DateArg) : Store × Outcome Unit :=
  if studentId = 0 ∨ mood = "" then (s, .status 400)
  else
    let dateVal := dateOrNow rt now loggedDate
    match toISOStringSlice dateVal with
    | none => (s, .uncaught)
    | some sqlDate =>
      match insertMoodLog s studentId sqlDate mood (orNull note) with
      | .error e => if e = .dupEntry then (s, .status 409) else (s, .status 500)
      | .ok s1 =>
        if mood = "mal" ∨ mood = "muyMal" then
          (insertAlert s1 now studentId "mood" (if mood = "muyMal" then "high" else "medium")
            "Ánimo bajo reportado", .json ())
        else (s1, .json ())

/-- Handler `app.post('/perception')`. -/
def postPerception (rt : Runtime) (now : Int) (s : Store) (studentId : Nat)
    (subject emotion : String) (weekStart : Option DateArg) (notes : Option String) :
    Store × Outcome Unit :=
  if studentId = 0 ∨ subject = "" ∨ emotion = "" then (s, .status 400)
  else
    let week := dateOrNow rt now weekStart
    let start := weekStartOf rt week
    match toISOStringSlice start with
    | none => (s, .uncaught)
    | some sqlDate =>
      match insertWeeklyPerception s studentId subject sqlDate emotion (orNull notes) with
      | .ok s1 => (s1, .json ())
      | .error e => if e = .dupEntry then (s, .status 409) else (s, .status 500)

/-- Handler `app.post('/justifications')`. -/
def postJustifications (now : Int) (s : Store) (studentId : Nat) (type : String)
    (evidenceUrl : Option String) (groupId : Nat) : Store × Outcome Unit :=
  if studentId = 0 ∨ type = "" ∨ groupId = 0 then (s, .status 400)
  else
    match s.group_members.filter
        (fun gm => decide (gm.student_id = studentId ∧ gm.group_id = groupId)) with
    | [] => (s, .status 400)
    | _ :: _ => (insertJustification s now studentId groupId type (orNull evidenceUrl), .json ())

/-- Row of a justification listing; `student` and `studentId` are selected by
the tutor query only. -/
structure JustificationView where
  id : Nat
  groupId : Nat
  type : String
  evidenceUrl : Option String
  status : String
  createdAt : Int
  student : Option String
  studentId : Option Nat
  deriving DecidableEq, Repr

/-- The clause `ORDER BY created_at DESC` on the rows of a result. -/
def orderByCreatedDesc {α : Type} (createdAt : α → Int) (rows : List α) : List α :=
  rows.insertionSort (fun a b => createdAt b ≤ createdAt a)

/-- The tutor query of `app.get('/justifications')`: `justifications j JOIN users u
ON u.id = j.student_id JOIN group_members gm ON gm.student_id = j.student_id
WHERE gm.group_id IN (ids) ORDER BY j.created_at DESC`. -/
def selectJustificationsOfGroups (s : Store) (ids : List Nat) : List JustificationView :=
  orderByCreatedDesc (·.createdAt) <|
    s.justifications.flatMap fun j =>
      (s.users.filter (fun u => decide (u.id = j.student_id))).flatMap fun u =>
        (s.group_members.filter
            (fun gm => decide (gm.student_id = j.student_id ∧ gm.group_id ∈ ids))).map fun _ =>
          ⟨j.id, j.group_id, j.type, j.evidence_url, j.status, j.created_at,
            some u.name, some u.id⟩

/-- The student query of `app.get('/justifications')`. -/
def selectJustificationsOfStudent (s : Store) (studentId : Nat) : List JustificationView :=
  orderByCreatedDesc (·.createdAt) <|
    (s.justifications.filter (fun j => decide (j.student_id = studentId))).map fun j =>
      ⟨j.id, j.group_id, j.type, j.evidence_url, j.status, j.created_at, none, none⟩

/-- Handler `app.get('/justifications')`. -/
def getJustifications (s : Store) (studentId tutorId : Option Nat) :
    Store × Outcome (List JustificationView) :=
  match studentId with
  | some studentId => (s, .json (selectJustificationsOfStudent s studentId))
  | none =>
    match tutorId with
    | some tutorId =>
      let ids := (selectGroupsOfTutor s tutorId).map (·.id)
      if ids.length = 0 then (s, .json [])
      else (s, .json (selectJustificationsOfGroups s ids))
    | none => (s, .status 400)

/-- Row of an alert listing; `student` is selected by the tutor query only. -/
structure AlertView where
  id : Nat
  type : String
  severity : String
  message : String
  createdAt : Int
  student : Option String
  deriving DecidableEq, Repr

/-- The student query of `app.get('/alerts')`. -/
def selectAlertsOfStudent (s : Store) (studentId : Nat) : List AlertView :=
  orderByCreatedDesc (·.createdAt) <|
    (s.alerts.filter (fun a => decide (a.student_id = studentId))).map fun a =>
      ⟨a.id, a.type, a.severity, a.message, a.created_at, none⟩

/-- The tutor query of `app.get('/alerts')`: `alerts a JOIN users u
ON u.id = a.student_id JOIN group_members gm ON gm.student_id = a.student_id
WHERE gm.group_id IN (ids) ORDER BY a.created_at DESC`. -/
def selectAlertsOfGroups (s : Store) (ids : List Nat) : List AlertView :=
  orderByCreatedDesc (·.createdAt) <|
    s.alerts.flatMap fun a =>
      (s.users.filter (fun u => decide (u.id = a.student_id))).flatMap fun u =>
        (s.group_members.filter
            (fun gm => decide (gm.student_id = a.student_id ∧ gm.group_id ∈ ids))).map fun _ =>
          ⟨a.id, a.type, a.severity, a.message, a.created_at, some u.name⟩

/-- Handler `app.get('/alerts')`. -/
def getAlerts (s : Store) (studentId tutorId : Option Nat) :
    Store × Outcome (List AlertView) :=
  match studentId with
  | some studentId => (s, .json (selectAlertsOfStudent s studentId))
  | none =>
    match tutorId with
    | some tutorId =>
      let ids := (selectGroupsOfTutor s tutorId).map (·.id)
      if ids.length = 0 then (s, .json [])
      else (s, .json (selectAlertsOfGroups s ids))
    | none => (s, .status 400)

/-- Days the week-start rule goes back for a weekday `w` (0 Sunday ... 6
Saturday): 6 on a Sunday, `w - 1` otherwise. -/
def backDays (w : Int) : Int := if w = 0 then 6 else w - 1

/-! ## Concrete runtimes -/

/-- Decimal value of the digits `cs`, most significant first; `none` if a
character is not a digit. -/
def digitsVal (cs : List Char) : Option Int :=
  cs.foldl
    (fun acc c =>
      match acc with
      | some n => if c.isDigit then some (10 * n + ((c.toNat : Int) - 48)) else none
      | none => none)
    (some 0)

/-- The part of `Date.parse` that reads the ISO date-only form `YYYY-MM-DD`,
which ECMAScript takes as midnight UTC of that calendar date; every other
string is answered with NaN. -/
def parseDateOnly (s : String) : Option Int :=
  match s.toList with
  | [y1, y2, y3, y4, '-', m1, m2, '-', d1, d2] =>
    match digitsVal [y1, y2, y3, y4], digitsVal [m1, m2], digitsVal [d1, d2] with
    | some y, some m, some d =>
      let t := MakeDate (MakeDay y (m - 1) d) 0
      if 1 ≤ m ∧ m ≤ 12 ∧ MonthFromTime t = m - 1 ∧ DateFromTime t = d then some t else none
    | _, _, _ => none
  | _ => none

/-- A server whose local time zone is UTC. -/
def utcServer : Runtime := ⟨0, parseDateOnly⟩

/-- A server in the zone America/Mexico_City: six hours behind UTC all year. -/
def mexicoCityServer : Runtime := ⟨-21600000, parseDateOnly⟩

/-! ## A concrete store -/

/-- The store after a tutor registered and opened two groups, and a student
registered and joined both. -/
def twoGroupStore : Store :=
  let s1 := (postAuthRegister Store.empty "tutor" "T" "t@example.org" "pw1").1
  let s2 := (postGroups s1 1 "G1" "ABC" none).1
  let s3 := (postGroups s2 1 "G2" "DEF" none).1
  let s4 := (postAuthRegister s3 "student" "S" "s@example.org" "pw2").1
  let s5 := (postGroupsJoin s4 2 "ABC" none).1
  (postGroupsJoin s5 2 "DEF" none).1

/-! ## Facts about the time arithmetic -/

/-- Consecutive years start `DaysInYear` days apart. -/
theorem DayFromYear_succ (y : Int) : DayFromYear (y + 1) = DayFromYear y + DaysInYear y := by
  unfold DayFromYear DaysInYear
  omega

/-- The year computed by `YearFromTime` is the one ECMAScript defines: it
starts on or before the day of `t`, and the next year starts after it. -/
theorem YearFromTime_spec (t : Int) :
    DayFromYear (YearFromTime t) ≤ Day t ∧ Day t < DayFromYear (YearFromTime t + 1) := by
  unfold YearFromTime
  simp only
  generalize Day t = d
  have ha1 : 146097 * (d * 400 / 146097) ≤ d * 400 := Int.mul_ediv_self_le (by norm_num)
  have ha2 : d * 400 < 146097 * (d * 400 / 146097) + 146097 := Int.lt_mul_ediv_self_add (by norm_num)
  generalize d * 400 / 146097 = a at *
  have e0 : DayFromYear (1970 + a - 1) = 365 * (a - 1) + a / 4 - (a + 68) / 100 + (a + 368) / 400 := by
    unfold DayFromYear; omega
  have e1 : DayFromYear (1970 + a) = 365 * a + (a + 1) / 4 - (a + 69) / 100 + (a + 369) / 400 := by
    unfold DayFromYear; omega
  have e2 : DayFromYear (1970 + a + 1) = 365 * (a + 1) + (a + 2) / 4 - (a + 70) / 100 + (a + 370) / 400 := by
    unfold DayFromYear; omega
  have e3 : DayFromYear (1970 + a + 1 + 1) = 365 * (a + 2) + (a + 3) / 4 - (a + 71) / 100 + (a + 371) / 400 := by
    unfold DayFromYear; omega
  have e1b : DayFromYear (1970 + a - 1 + 1) = DayFromYear (1970 + a) := by congr 1; omega
  split_ifs with h1 h2
  · refine ⟨h1, ?_⟩
    rw [e3]
    omega
  · refine ⟨?_, ?_⟩
    · rw [e0]; omega
    · rw [e1b]; exact h2
  · exact ⟨by omega, by omega⟩

/-- A month number is between 0 and 11. -/
theorem monthOfDay_range (d l : Int) : 0 ≤ monthOfDay d l ∧ monthOfDay d l ≤ 11 := by
  unfold monthOfDay
  omega

theorem MonthFromTime_range (t : Int) : 0 ≤ MonthFromTime t ∧ MonthFromTime t ≤ 11 :=
  monthOfDay_range _ _

/-- Applying `MakeDay` to the fields of a time value gives back its day number, also
with the day of the month moved by `k`. -/
theorem MakeDay_fields (t k : Int) :
    MakeDay (YearFromTime t) (MonthFromTime t) (DateFromTime t - k) = Day t - k := by
  have hm := MonthFromTime_range t
  have h1 : MonthFromTime t / 12 = 0 := by omega
  have h2 : MonthFromTime t % 12 = MonthFromTime t := by omega
  unfold MakeDay
  simp only [h1, h2, add_zero]
  unfold DateFromTime DayWithinYear InLeapYear
  omega

theorem MakeDate_Day_TimeWithinDay (t k : Int) :
    MakeDate (Day t - k) (TimeWithinDay t) = t - k * msPerDay := by
  unfold MakeDate Day TimeWithinDay msPerDay
  omega

theorem setDate_getDate_sub (rt : Runtime) (t k : Int) :
    setDate rt (some t) (some (DateFromTime (LocalTime rt t) - k))
      = TimeClip (t - k * msPerDay) := by
  unfold setDate
  simp only [MakeDay_fields, MakeDate_Day_TimeWithinDay]
  congr 1
  unfold UTC LocalTime
  omega

/-- The week-start arithmetic moves a valid time value back by whole days:
as many as the local weekday is past Monday. -/
theorem weekStartOf_some (rt : Runtime) (t : Int) :
    weekStartOf rt (some t)
      = TimeClip (t - backDays (WeekDay (LocalTime rt t)) * msPerDay) := by
  unfold weekStartOf backDays
  simp only [getDay, getDate, Option.map_some']
  by_cases h : WeekDay (LocalTime rt t) = 0
  · simp only [h, if_true]
    exact setDate_getDate_sub rt t 6
  · have h2 : ¬ (some (WeekDay (LocalTime rt t)) = some (0 : Int)) := by
      intro hc; exact h (Option.some.inj hc)
    simp only [h, h2, if_false]
    exact setDate_getDate_sub rt t _

theorem weekStartOf_none (rt : Runtime) : weekStartOf rt none = none := by
  unfold weekStartOf
  simp [getDay, getDate, setDate]

/-- The ISO date of a time value depends on its UTC day only. -/
theorem isoSlice_congr (t1 t2 : Int) (h : Day t1 = Day t2) : isoSlice t1 = isoSlice t2 := by
  have hy : YearFromTime t1 = YearFromTime t2 := by unfold YearFromTime; rw [h]
  have hd : DayWithinYear t1 = DayWithinYear t2 := by unfold DayWithinYear; rw [h, hy]
  have hl : InLeapYear t1 = InLeapYear t2 := by unfold InLeapYear; rw [hy]
  have hm : MonthFromTime t1 = MonthFromTime t2 := by unfold MonthFromTime; rw [hd, hl]
  have hdt : DateFromTime t1 = DateFromTime t2 := by unfold DateFromTime; rw [hd, hl, hm]
  unfold isoSlice
  rw [hy, hm, hdt]

/-- A four-digit ISO date names the UTC day of the time value it was printed
from. -/
theorem isoSlice_ymd (t y m d : Int) (h : isoSlice t = .ymd y m d) :
    MakeDay y (m - 1) d = Day t := by
  unfold isoSlice at h
  simp only at h
  split_ifs at h
  injection h with h1 h2 h3
  subst h1 h2 h3
  have := MakeDay_fields t 0
  simpa using this

/-! ## Mood tracking -/

theorem insertMoodLog_ok (s s1 : Store) (studentId : Nat) (d : SqlDate) (mood : String)
    (note : Option String) (h : insertMoodLog s studentId d mood note = .ok s1) :
    s1 = { s with mood_logs :=
            s.mood_logs ++ [⟨nextId (s.mood_logs.map (·.id)), studentId, d, mood, note⟩] } := by
  unfold insertMoodLog at h
  split_ifs at h
  injection h with h
  exact h.symm

theorem insertMoodLog_dup (s : Store) (studentId : Nat) (d : SqlDate) (mood : String)
    (note : Option String) (r : MoodLog) (hr : r ∈ s.mood_logs)
    (h1 : r.student_id = studentId) (h2 : r.logged_date = d) :
    insertMoodLog s studentId d mood note = .error .dupEntry := by
  unfold insertMoodLog
  rw [if_pos]
  rw [List.any_eq_true]
  exact ⟨r, hr, by simp [h1, h2]⟩

theorem insertMoodLog_error (s : Store) (studentId : Nat) (d : SqlDate) (mood : String)
    (note : Option String) (e : DbError)
    (h : insertMoodLog s studentId d mood note = .error e) : e = .dupEntry := by
  unfold insertMoodLog at h
  split_ifs at h
  injection h with h
  exact h.symm

theorem postMood_missing (rt : Runtime) (now : Int) (s : Store) (studentId : Nat)
    (mood : String) (note : Option String) (loggedDate : Option DateArg)
    (h : studentId = 0 ∨ mood = "") :
    postMood rt now s studentId mood note loggedDate = (s, .status 400) := by
  unfold postMood
  rw [if_pos h]

theorem postMood_invalid (rt : Runtime) (now : Int) (s : Store) (studentId : Nat)
    (mood : String) (note : Option String) (loggedDate : Option DateArg)
    (h : ¬ (studentId = 0 ∨ mood = ""))
    (hd : toISOStringSlice (dateOrNow rt now loggedDate) = none) :
    postMood rt now s studentId mood note loggedDate = (s, .uncaught) := by
  unfold postMood
  rw [if_neg h]
  simp only [hd]

theorem postMood_conflict (rt : Runtime) (now : Int) (s : Store) (studentId : Nat)
    (mood : String) (note : Option String) (loggedDate : Option DateArg) (d : SqlDate)
    (e : DbError) (h : ¬ (studentId = 0 ∨ mood = ""))
    (hd : toISOStringSlice (dateOrNow rt now loggedDate) = some d)
    (hi : insertMoodLog s studentId d mood (orNull note) = .error e) :
    postMood rt now s studentId mood note loggedDate = (s, .status 409) := by
  have he := insertMoodLog_error s studentId d mood (orNull note) e hi
  subst he
  unfold postMood
  rw [if_neg h]
  simp only [hd, hi, if_true]

theorem postMood_inserted (rt : Runtime) (now : Int) (s s1 : Store) (studentId : Nat)
    (mood : String) (note : Option String) (loggedDate : Option DateArg) (d : SqlDate)
    (h : ¬ (studentId = 0 ∨ mood = ""))
    (hd : toISOStringSlice (dateOrNow rt now loggedDate) = some d)
    (hi : insertMoodLog s studentId d mood (orNull note) = .ok s1) :
    postMood rt now s studentId mood note loggedDate
      = (if mood = "mal" ∨ mood = "muyMal" then
          insertAlert s1 now studentId "mood" (if mood = "muyMal" then "high" else "medium")
            "Ánimo bajo reportado"
         else s1, .json ()) := by
  unfold postMood
  rw [if_neg h]
  simp only [hd, hi]
  split_ifs <;> rfl

/-- C3. Whenever `SubmitMood` inserts the mood log: for mood "muyMal" exactly
one alert row is appended, for that student, of type "mood" and severity
"high"; for mood "mal" exactly one, of severity "medium"; for every other mood
the alerts table is unchanged. -/
theorem postMood_alerts (rt : Runtime) (now : Int) (s : Store) (studentId : Nat)
    (mood : String) (note : Option String) (loggedDate : Option DateArg)
    (h : (postMood rt now s studentId mood note loggedDate).1.mood_logs ≠ s.mood_logs) :
    (mood = "muyMal" → ∃ a : Alert,
        (postMood rt now s studentId mood note loggedDate).1.alerts = s.alerts ++ [a]
          ∧ a.student_id = studentId ∧ a.type = "mood" ∧ a.severity = "high") ∧
    (mood = "mal" → ∃ a : Alert,
        (postMood rt now s studentId mood note loggedDate).1.alerts = s.alerts ++ [a]
          ∧ a.student_id = studentId ∧ a.type = "mood" ∧ a.severity = "medium") ∧
    (mood ≠ "muyMal" → mood ≠ "mal" →
        (postMood rt now s studentId mood note loggedDate).1.alerts = s.alerts) := by
  by_cases h0 : studentId = 0 ∨ mood = ""
  · rw [postMood_missing rt now s studentId mood note loggedDate h0] at h
    exact absurd rfl h
  cases hd : toISOStringSlice (dateOrNow rt now loggedDate) with
  | none =>
    rw [postMood_invalid rt now s studentId mood note loggedDate h0 hd] at h
    exact absurd rfl h
  | some d =>
    cases hi : insertMoodLog s studentId d mood (orNull note) with
    | error e =>
      rw [postMood_conflict rt now s studentId mood note loggedDate d e h0 hd hi] at h
      exact absurd rfl h
    | ok s1 =>
      have hs1 := insertMoodLog_ok s s1 studentId d mood (orNull note) hi
      rw [postMood_inserted rt now s s1 studentId mood note loggedDate d h0 hd hi]
      refine ⟨?_, ?_, ?_⟩
      · intro hm
        subst hm
        refine ⟨⟨nextId (s1.alerts.map (·.id)), studentId, "mood", "high",
          "Ánimo bajo reportado", now⟩, ?_, rfl, rfl, rfl⟩
        simp [insertAlert, hs1]
      · intro hm
        subst hm
        refine ⟨⟨nextId (s1.alerts.map (·.id)), studentId, "mood", "medium",
          "Ánimo bajo reportado", now⟩, ?_, rfl, rfl, rfl⟩
        simp [insertAlert, hs1]
      · intro hm1 hm2
        simp [hm1, hm2, hs1]

/-- Witness for C3: a "muyMal" submission on an empty store. -/
theorem postMood_alerts_witness :
    ∃ a : Alert,
      (postMood utcServer 0 Store.empty 7 "muyMal" none
          (some (.text "2024-01-03"))).1.alerts = Store.empty.alerts ++ [a]
        ∧ a.student_id = 7 ∧ a.type = "mood" ∧ a.severity = "high" :=
  (postMood_alerts utcServer 0 Store.empty 7 "muyMal" none
    (some (.text "2024-01-03")) (by decide)).1 rfl

theorem dateOrNow_truthy (rt : Runtime) (now : Int) (v : DateArg) (hv : v.truthy = true) :
    dateOrNow rt now (some v) = newDate rt v := by
  unfold dateOrNow
  simp only [hv, if_true]

/-- C4 as amended. Two `loggedDate` values that are truthy (neither `0` nor
`""`) and denote valid instants `t1`, `t2` of the same UTC day, the day
`toISOString` prints, whatever their times of day: once the first `SubmitMood`
of a student has succeeded, the second one for that student (with a mood
present) answers 409 and leaves the store as it was, so neither a mood log nor
an alert is added. -/
theorem postMood_same_day_conflict (rt : Runtime) (now1 now2 : Int) (s : Store)
    (studentId : Nat) (mood1 mood2 : String) (note1 note2 : Option String)
    (v1 v2 : DateArg) (t1 t2 : Int)
    (hv1 : v1.truthy = true) (hv2 : v2.truthy = true)
    (ht1 : newDate rt v1 = some t1) (ht2 : newDate rt v2 = some t2)
    (hday : Day t1 = Day t2) (hm2 : mood2 ≠ "")
    (hfirst : (postMood rt now1 s studentId mood1 note1 (some v1)).2 = .json ()) :
    postMood rt now2 (postMood rt now1 s studentId mood1 note1 (some v1)).1
        studentId mood2 note2 (some v2)
      = ((postMood rt now1 s studentId mood1 note1 (some v1)).1, .status 409) := by
  have hd1 : toISOStringSlice (dateOrNow rt now1 (some v1)) = some (isoSlice t1) := by
    rw [dateOrNow_truthy rt now1 v1 hv1, ht1]; rfl
  by_cases h0 : studentId = 0 ∨ mood1 = ""
  · rw [postMood_missing rt now1 s studentId mood1 note1 (some v1) h0] at hfirst
    cases hfirst
  cases hi : insertMoodLog s studentId (isoSlice t1) mood1 (orNull note1) with
  | error e =>
    rw [postMood_conflict rt now1 s studentId mood1 note1 (some v1) _ e h0 hd1 hi] at hfirst
    cases hfirst
  | ok s1 =>
    have hs1 := insertMoodLog_ok s s1 studentId (isoSlice t1) mood1 (orNull note1) hi
    rw [postMood_inserted rt now1 s s1 studentId mood1 note1 (some v1) _ h0 hd1 hi]
    have hd2 : toISOStringSlice (dateOrNow rt now2 (some v2)) = some (isoSlice t2) := by
      rw [dateOrNow_truthy rt now2 v2 hv2, ht2]; rfl
    have h02 : ¬ (studentId = 0 ∨ mood2 = "") := by
      intro hc
      rcases hc with hc | hc
      · exact h0 (Or.inl hc)
      · exact hm2 hc
    have hrow : (⟨nextId (s.mood_logs.map (·.id)), studentId, isoSlice t1, mood1, orNull note1⟩
        : MoodLog) ∈ s1.mood_logs := by
      rw [hs1]; simp
    apply postMood_conflict rt now2 _ studentId mood2 note2 (some v2) (isoSlice t2) .dupEntry
      h02 hd2
    apply insertMoodLog_dup _ studentId (isoSlice t2) mood2 (orNull note2)
      ⟨nextId (s.mood_logs.map (·.id)), studentId, isoSlice t1, mood1, orNull note1⟩ _ rfl
      (isoSlice_congr t1 t2 hday)
    show _ ∈ Store.mood_logs (if _ then _ else _)
    split_ifs <;> exact hrow

/-- Witness for C4 as amended: 08:00 and 20:30 UTC of 2024-01-03, the first
with mood "mal". -/
theorem postMood_same_day_conflict_witness :
    postMood utcServer 5 (postMood utcServer 0 Store.empty 7 "mal" none
        (some (.millis 1704268800000))).1 7 "bien" none (some (.millis 1704313800000))
      = ((postMood utcServer 0 Store.empty 7 "mal" none
        (some (.millis 1704268800000))).1, .status 409) :=
  postMood_same_day_conflict utcServer 0 5 Store.empty 7 "mal" "bien" none none
    (.millis 1704268800000) (.millis 1704313800000) 1704268800000 1704313800000
    (by decide) (by decide) (by decide) (by decide) (by decide) (by decide) (by decide)

/-- C4, counterexample: two pairs of `loggedDate` values of one calendar date
with different times of day, each pair accepted twice.  On a server six hours
behind UTC, 17:00 and 19:00 local time of 2024-01-03 (the instants
2024-01-03T23:00Z and 2024-01-04T01:00Z) are stored as 2024-01-03 and
2024-01-04.  On a server in UTC whose clock reads 2024-01-03, the values 0 and
1 are both instants of 1970-01-01; 0 is falsy, so the first call logs the
current date and the second logs 1970-01-01.  In both runs the second call
answers 200 and adds a second mood log. -/
theorem postMood_same_date_two_logs :
    (Day (LocalTime mexicoCityServer 1704322800000)
        = Day (LocalTime mexicoCityServer 1704330000000)
      ∧ (postMood mexicoCityServer 0 Store.empty 7 "bien" none
          (some (.millis 1704322800000))).2 = .json ()
      ∧ (postMood mexicoCityServer 0
          (postMood mexicoCityServer 0 Store.empty 7 "bien" none
            (some (.millis 1704322800000))).1
          7 "bien" none (some (.millis 1704330000000))).2 = .json ()
      ∧ (postMood mexicoCityServer 0
          (postMood mexicoCityServer 0 Store.empty 7 "bien" none
            (some (.millis 1704322800000))).1
          7 "bien" none (some (.millis 1704330000000))).1.mood_logs.map (·.logged_date)
          = [.ymd 2024 1 3, .ymd 2024 1 4])
    ∧ (newDate utcServer (.millis 0) = some 0 ∧ newDate utcServer (.millis 1) = some 1
      ∧ Day 0 = Day 1 ∧ TimeWithinDay 0 ≠ TimeWithinDay 1
      ∧ (postMood utcServer 1704240000000 Store.empty 7 "bien" none
          (some (.millis 0))).2 = .json ()
      ∧ (postMood utcServer 1704240000000
          (postMood utcServer 1704240000000 Store.empty 7 "bien" none (some (.millis 0))).1
          7 "bien" none (some (.millis 1))).2 = .json ()
      ∧ (postMood utcServer 1704240000000
          (postMood utcServer 1704240000000 Store.empty 7 "bien" none (some (.millis 0))).1
          7 "bien" none (some (.millis 1))).1.mood_logs.map (·.logged_date)
          = [.ymd 2024 1 3, .ymd 1970 1 1]) := by
  decide

/-! ## Weekly perception -/

theorem TimeClip_some (t u : Int) (h : TimeClip t = some u) : u = t := by
  unfold TimeClip at h
  split_ifs at h
  injection h with h
  exact h.symm

/-- What `app.post('/perception')` stores, in any time zone: the UTC calendar
date of the instant reached by going back as many whole days as the local
weekday is past Monday. -/
theorem weekStart_dayNumber (rt : Runtime) (t y m d : Int)
    (h : toISOStringSlice (weekStartOf rt (some t)) = some (.ymd y m d)) :
    (SqlDate.ymd y m d).dayNumber
      = some (Day (t - backDays (WeekDay (LocalTime rt t)) * msPerDay)) := by
  rw [weekStartOf_some] at h
  cases hc : TimeClip (t - backDays (WeekDay (LocalTime rt t)) * msPerDay) with
  | none => rw [hc] at h; cases h
  | some u =>
    rw [hc] at h
    have hu := TimeClip_some _ _ hc
    subst hu
    have h2 : isoSlice (t - backDays (WeekDay (LocalTime rt t)) * msPerDay) = .ymd y m d := by
      simpa [toISOStringSlice] using h
    simp only [SqlDate.dayNumber]
    rw [isoSlice_ymd _ y m d h2]

/-- On a server whose local time zone is UTC the stored week start is the
Monday of the week of `t`: `backDays (WeekDay t)` days before the day of `t`,
which is between 0 and 6. -/
theorem weekStart_utc_monday (rt : Runtime) (htz : rt.localTZA = 0) (t y m d : Int)
    (h : toISOStringSlice (weekStartOf rt (some t)) = some (.ymd y m d)) :
    (SqlDate.ymd y m d).dayNumber = some (Day t - backDays (WeekDay t))
      ∧ (SqlDate.ymd y m d).weekday = some 1
      ∧ 0 ≤ backDays (WeekDay t) ∧ backDays (WeekDay t) ≤ 6 := by
  have h1 := weekStart_dayNumber rt t y m d h
  have hl : LocalTime rt t = t := by unfold LocalTime; omega
  rw [hl] at h1
  simp only [SqlDate.dayNumber, Option.some.injEq] at h1
  have hk : 0 ≤ backDays (WeekDay t) ∧ backDays (WeekDay t) ≤ 6 := by
    unfold backDays WeekDay; omega
  have hday : Day (t - backDays (WeekDay t) * msPerDay) = Day t - backDays (WeekDay t) := by
    unfold Day msPerDay; omega
  refine ⟨?_, ?_, hk.1, hk.2⟩
  · simp only [SqlDate.dayNumber, h1, hday]
  · simp only [SqlDate.weekday, h1, hday]
    congr 1
    unfold WeekDay MakeDate Day backDays msPerDay
    omega

theorem insertWeeklyPerception_ok (s s1 : Store) (studentId : Nat) (subject : String)
    (d : SqlDate) (emotion : String) (notes : Option String)
    (h : insertWeeklyPerception s studentId subject d emotion notes = .ok s1) :
    s1 = { s with weekly_perceptions := s.weekly_perceptions ++
            [⟨nextId (s.weekly_perceptions.map (·.id)), studentId, subject, d, emotion, notes⟩] } := by
  unfold insertWeeklyPerception at h
  split_ifs at h
  injection h with h
  exact h.symm

theorem insertWeeklyPerception_dup (s : Store) (studentId : Nat) (subject : String)
    (d : SqlDate) (emotion : String) (notes : Option String) (r : WeeklyPerception)
    (hr : r ∈ s.weekly_perceptions) (h1 : r.student_id = studentId) (h2 : r.subject = subject)
    (h3 : r.week_start = d) :
    insertWeeklyPerception s studentId subject d emotion notes = .error .dupEntry := by
  unfold insertWeeklyPerception
  rw [if_pos]
  rw [List.any_eq_true]
  exact ⟨r, hr, by simp [h1, h2, h3]⟩

theorem postPerception_missing (rt : Runtime) (now : Int) (s : Store) (studentId : Nat)
    (subject emotion : String) (weekStart : Option DateArg) (notes : Option String)
    (h : studentId = 0 ∨ subject = "" ∨ emotion = "") :
    postPerception rt now s studentId subject emotion weekStart notes = (s, .status 400) := by
  unfold postPerception
  rw [if_pos h]

theorem postPerception_invalid (rt : Runtime) (now : Int) (s : Store) (studentId : Nat)
    (subject emotion : String) (weekStart : Option DateArg) (notes : Option String)
    (h : ¬ (studentId = 0 ∨ subject = "" ∨ emotion = ""))
    (hd : toISOStringSlice (weekStartOf rt (dateOrNow rt now weekStart)) = none) :
    postPerception rt now s studentId subject emotion weekStart notes = (s, .uncaught) := by
  unfold postPerception
  rw [if_neg h]
  simp only [hd]

theorem postPerception_step (rt : Runtime) (now : Int) (s : Store) (studentId : Nat)
    (subject emotion : String) (weekStart : Option DateArg) (notes : Option String)
    (d : SqlDate) (h : ¬ (studentId = 0 ∨ subject = "" ∨ emotion = ""))
    (hd : toISOStringSlice (weekStartOf rt (dateOrNow rt now weekStart)) = some d) :
    postPerception rt now s studentId subject emotion weekStart notes
      = match insertWeeklyPerception s studentId subject d emotion (orNull notes) with
        | .ok s1 => (s1, .json ())
        | .error e => if e = .dupEntry then (s, .status 409) else (s, .status 500) := by
  unfold postPerception
  rw [if_neg h]
  simp only [hd]

/-- Two submissions of one student for one subject whose dates the handler
normalizes to the same `week_start`: after the first has succeeded the second
answers 409 and the store stays as it was. -/
theorem postPerception_same_start_conflict (rt : Runtime) (now1 now2 : Int) (s : Store)
    (studentId : Nat) (subject emotion1 emotion2 : String) (w1 w2 : Option DateArg)
    (notes1 notes2 : Option String) (d : SqlDate) (he2 : emotion2 ≠ "")
    (hd1 : toISOStringSlice (weekStartOf rt (dateOrNow rt now1 w1)) = some d)
    (hd2 : toISOStringSlice (weekStartOf rt (dateOrNow rt now2 w2)) = some d)
    (hfirst : (postPerception rt now1 s studentId subject emotion1 w1 notes1).2 = .json ()) :
    postPerception rt now2 (postPerception rt now1 s studentId subject emotion1 w1 notes1).1
        studentId subject emotion2 w2 notes2
      = ((postPerception rt now1 s studentId subject emotion1 w1 notes1).1, .status 409) := by
  by_cases h0 : studentId = 0 ∨ subject = "" ∨ emotion1 = ""
  · rw [postPerception_missing rt now1 s studentId subject emotion1 w1 notes1 h0] at hfirst
    cases hfirst
  have h02 : ¬ (studentId = 0 ∨ subject = "" ∨ emotion2 = "") := by
    intro hc
    rcases hc with hc | hc | hc
    · exact h0 (Or.inl hc)
    · exact h0 (Or.inr (Or.inl hc))
    · exact he2 hc
  rw [postPerception_step rt now1 s studentId subject emotion1 w1 notes1 d h0 hd1] at hfirst ⊢
  cases hi : insertWeeklyPerception s studentId subject d emotion1 (orNull notes1) with
  | error e =>
    rw [hi] at hfirst
    simp only at hfirst
    split_ifs at hfirst
  | ok s1 =>
    have hs1 := insertWeeklyPerception_ok s s1 studentId subject d emotion1 (orNull notes1) hi
    simp only
    rw [postPerception_step rt now2 s1 studentId subject emotion2 w2 notes2 d h02 hd2]
    rw [insertWeeklyPerception_dup s1 studentId subject d emotion2 (orNull notes2)
      ⟨nextId (s.weekly_perceptions.map (·.id)), studentId, subject, d, emotion1, orNull notes1⟩
      (by rw [hs1]; simp) rfl rfl rfl]
    simp

/-- On a server in UTC, instants of one Monday-to-Sunday week are normalized
to the same stored date. -/
theorem weekStart_utc_same_week (rt : Runtime) (htz : rt.localTZA = 0) (t1 t2 : Int)
    (hweek : Day t1 - backDays (WeekDay t1) = Day t2 - backDays (WeekDay t2))
    (hv : weekStartOf rt (some t1) ≠ none) (hv2 : weekStartOf rt (some t2) ≠ none) :
    toISOStringSlice (weekStartOf rt (some t1)) = toISOStringSlice (weekStartOf rt (some t2)) := by
  have hl : ∀ t, LocalTime rt t = t := by intro t; unfold LocalTime; omega
  rw [weekStartOf_some, hl] at hv ⊢
  rw [weekStartOf_some, hl] at hv2 ⊢
  cases hc1 : TimeClip (t1 - backDays (WeekDay t1) * msPerDay) with
  | none => exact absurd hc1 hv
  | some u1 =>
    cases hc2 : TimeClip (t2 - backDays (WeekDay t2) * msPerDay) with
    | none => exact absurd hc2 hv2
    | some u2 =>
      have e1 := TimeClip_some _ _ hc1
      have e2 := TimeClip_some _ _ hc2
      simp only [toISOStringSlice, Option.map_some']
      congr 1
      apply isoSlice_congr
      subst e1 e2
      have hk1 : 0 ≤ backDays (WeekDay t1) ∧ backDays (WeekDay t1) ≤ 6 := by
        unfold backDays WeekDay; omega
      have hk2 : 0 ≤ backDays (WeekDay t2) ∧ backDays (WeekDay t2) ≤ 6 := by
        unfold backDays WeekDay; omega
      generalize backDays (WeekDay t1) = k1 at *
      generalize backDays (WeekDay t2) = k2 at *
      unfold Day msPerDay at *
      omega

/-- C1, the code at the failing input: on a server six hours behind UTC the
date "2024-01-03", a Wednesday (weekday 3, so two days past Monday), is stored
as week start 2024-01-02, which is a Tuesday (weekday 2) and one day before the
input date. -/
theorem postPerception_week_start_not_monday :
    newDate mexicoCityServer (.text "2024-01-03") = some 1704240000000
      ∧ WeekDay 1704240000000 = 3
      ∧ (postPerception mexicoCityServer 0 Store.empty 7 "math" "bien"
            (some (.text "2024-01-03")) none).1.weekly_perceptions.map (·.week_start)
          = [.ymd 2024 1 2]
      ∧ (SqlDate.ymd 2024 1 2).weekday = some 2
      ∧ (SqlDate.ymd 2024 1 2).dayNumber = some (Day 1704240000000 - 1) := by
  decide

/-- C2, the code at the failing input: on a server six hours behind UTC the
Monday "2024-01-01" and the Wednesday "2024-01-03" of one week are stored as
2023-12-26 and 2024-01-02; the second submission of the same student and
subject succeeds and adds a second row. -/
theorem postPerception_same_week_no_conflict :
    (postPerception mexicoCityServer 0 Store.empty 7 "math" "bien"
        (some (.text "2024-01-01")) none).2 = .json ()
      ∧ (postPerception mexicoCityServer 0
          (postPerception mexicoCityServer 0 Store.empty 7 "math" "bien"
            (some (.text "2024-01-01")) none).1
          7 "math" "regular" (some (.text "2024-01-03")) none).2 = .json ()
      ∧ (postPerception mexicoCityServer 0
          (postPerception mexicoCityServer 0 Store.empty 7 "math" "bien"
            (some (.text "2024-01-01")) none).1
          7 "math" "regular" (some (.text "2024-01-03")) none).1.weekly_perceptions.map
            (·.week_start)
          = [.ymd 2023 12 26, .ymd 2024 1 2] := by
  decide

/-- A date field that is present and truthy but is not a valid date makes
`toISOString` throw before the `try` block of either handler. -/
theorem invalid_date_uncaught (rt : Runtime) (now : Int) (s : Store) (studentId : Nat)
    (a b : String) (note : Option String) (v : DateArg)
    (hs : studentId ≠ 0) (ha : a ≠ "") (hb : b ≠ "")
    (hv : v.truthy = true) (hnan : newDate rt v = none) :
    postMood rt now s studentId a note (some v) = (s, .uncaught)
      ∧ postPerception rt now s studentId a b (some v) note = (s, .uncaught) := by
  constructor
  · apply postMood_invalid
    · intro hc; rcases hc with hc | hc
      · exact hs hc
      · exact ha hc
    · rw [dateOrNow_truthy rt now v hv, hnan]; rfl
  · apply postPerception_invalid
    · intro hc; rcases hc with hc | hc | hc
      · exact hs hc
      · exact ha hc
      · exact hb hc
    · rw [dateOrNow_truthy rt now v hv, hnan, weekStartOf_none]; rfl

/-- C10, the code at the failing input: with `loggedDate` (or `weekStart`) the
string "not-a-date", or the number 8640000000000001 that lies outside the range
of time values, both handlers end with an exception that none of their `catch`
blocks sees, and no response is sent. -/
theorem handlers_throw_on_invalid_date :
    (postMood utcServer 0 Store.empty 7 "bien" none (some (.text "not-a-date"))).2 = .uncaught
      ∧ (postPerception utcServer 0 Store.empty 7 "math" "bien"
          (some (.text "not-a-date")) none).2 = .uncaught
      ∧ (postMood utcServer 0 Store.empty 7 "bien" none
          (some (.millis 8640000000000001))).2 = .uncaught
      ∧ (postPerception utcServer 0 Store.empty 7 "math" "bien"
          (some (.millis 8640000000000001)) none).2 = .uncaught
      ∧ (postMood utcServer 0 Store.empty 7 "bien" none
          (some (.text "not-a-date"))).2.code = none := by
  decide

/-! ## Justifications -/

/-- C5. A `Submit` with `studentId`, `type` and `groupId` present: without a
membership row for (studentId, groupId) it answers 400 and leaves the store as
it was; with such a row it succeeds and appends exactly one justification, for
that student and group, with status "pending". -/
theorem postJustifications_membership (now : Int) (s : Store) (studentId : Nat)
    (type : String) (evidenceUrl : Option String) (groupId : Nat)
    (hs : studentId ≠ 0) (ht : type ≠ "") (hg : groupId ≠ 0) :
    ((∀ gm ∈ s.group_members, ¬ (gm.student_id = studentId ∧ gm.group_id = groupId)) →
        postJustifications now s studentId type evidenceUrl groupId = (s, .status 400)) ∧
    ((∃ gm ∈ s.group_members, gm.student_id = studentId ∧ gm.group_id = groupId) →
        ∃ j : Justification,
          postJustifications now s studentId type evidenceUrl groupId
              = ({ s with justifications := s.justifications ++ [j] }, .json ())
            ∧ j.student_id = studentId ∧ j.group_id = groupId ∧ j.status = "pending") := by
  have h0 : ¬ (studentId = 0 ∨ type = "" ∨ groupId = 0) := by
    intro hc
    rcases hc with hc | hc | hc
    · exact hs hc
    · exact ht hc
    · exact hg hc
  constructor
  · intro hno
    have hf : s.group_members.filter
        (fun gm => decide (gm.student_id = studentId ∧ gm.group_id = groupId)) = [] := by
      rw [List.filter_eq_nil_iff]
      intro gm hgm
      simpa using hno gm hgm
    unfold postJustifications
    rw [if_neg h0, hf]
  · rintro ⟨gm, hgm, hmatch⟩
    have hmem : gm ∈ s.group_members.filter
        (fun gm => decide (gm.student_id = studentId ∧ gm.group_id = groupId)) := by
      rw [List.mem_filter]
      exact ⟨hgm, by simpa using hmatch⟩
    refine ⟨⟨nextId (s.justifications.map (·.id)), studentId, groupId, type,
      orNull evidenceUrl, "pending", now⟩, ?_, rfl, rfl, rfl⟩
    unfold postJustifications
    rw [if_neg h0]
    cases hl : s.group_members.filter
        (fun gm => decide (gm.student_id = studentId ∧ gm.group_id = groupId)) with
    | nil => rw [hl] at hmem; cases hmem
    | cons a l => rfl

/-- Witness for C5: in `twoGroupStore` student 2 may submit for group 1, and
student 3, member of no group, may not. -/
theorem postJustifications_membership_witness :
    postJustifications 1000 twoGroupStore 3 "medical" none 1 = (twoGroupStore, .status 400)
      ∧ ∃ j : Justification,
          postJustifications 1000 twoGroupStore 2 "medical" none 1
              = ({ twoGroupStore with
                    justifications := twoGroupStore.justifications ++ [j] }, .json ())
            ∧ j.student_id = 2 ∧ j.group_id = 1 ∧ j.status = "pending" :=
  ⟨(postJustifications_membership 1000 twoGroupStore 3 "medical" none 1
      (by decide) (by decide) (by decide)).1 (by decide),
   (postJustifications_membership 1000 twoGroupStore 2 "medical" none 1
      (by decide) (by decide) (by decide)).2 (by decide)⟩

/-- C6, the code at the failing input: tutor 1 owns groups 1 and 2, student 2
is a member of both and has submitted one justification; the tutor listing
answers with that justification twice, once per membership row. -/
theorem getJustifications_duplicates :
    (postJustifications 1000 twoGroupStore 2 "medical" none 1).1.justifications.length = 1
      ∧ (getJustifications (postJustifications 1000 twoGroupStore 2 "medical" none 1).1
            none (some 1)).2
          = .json [⟨1, 1, "medical", none, "pending", 1000, some "S", some 2⟩,
                   ⟨1, 1, "medical", none, "pending", 1000, some "S", some 2⟩] := by
  decide

/-! ## Registration and login -/

/-- C7. With `role`, `name`, `email` and `password` all non-empty and `email`
not yet in `users`, `Register` succeeds, stores the user and answers with the
new id; an `Authenticate` with the same email and password right afterwards
succeeds and answers with the projection (id, role, name, email) of that
user. -/
theorem register_then_login (s : Store) (role name email password : String)
    (hr : role ≠ "") (hn : name ≠ "") (he : email ≠ "") (hp : password ≠ "")
    (hnew : ∀ u ∈ s.users, u.email ≠ email) :
    ∃ id : Nat,
      postAuthRegister s role name email password
          = ({ s with users := s.users ++ [⟨id, role, name, email, password⟩] },
              .json ⟨id, role, name, email⟩)
        ∧ postAuthLogin (postAuthRegister s role name email password).1 email password
          = ((postAuthRegister s role name email password).1, .json ⟨id, role, name, email⟩) := by
  have h0 : ¬ (role = "" ∨ name = "" ∨ email = "" ∨ password = "") := by
    intro hc
    rcases hc with hc | hc | hc | hc
    · exact hr hc
    · exact hn hc
    · exact he hc
    · exact hp hc
  have hf : s.users.filter (fun u => decide (u.email = email)) = [] := by
    rw [List.filter_eq_nil_iff]
    intro u hu
    simpa using hnew u hu
  have hany : s.users.any (fun u => decide (u.email = email)) = false := by
    rw [List.any_eq_false]
    intro u hu
    simpa using hnew u hu
  have hreg : postAuthRegister s role name email password
      = ({ s with users := s.users ++
            [⟨nextId (s.users.map (·.id)), role, name, email, password⟩] },
          .json ⟨nextId (s.users.map (·.id)), role, name, email⟩) := by
    unfold postAuthRegister
    rw [if_neg h0]
    simp only [hf, List.length_nil, ne_eq, not_true_eq_false, if_false]
    unfold insertUser
    simp only [hany]
    rfl
  refine ⟨nextId (s.users.map (·.id)), hreg, ?_⟩
  rw [hreg]
  have h1 : ¬ (email = "" ∨ password = "") := by
    intro hc
    rcases hc with hc | hc
    · exact he hc
    · exact hp hc
  have hf2 : s.users.filter (fun u => decide (u.email = email ∧ u.password_hash = password))
      = [] := by
    rw [List.filter_eq_nil_iff]
    intro u hu
    have := hnew u hu
    simp [this]
  have hrows : ((s.users ++ [(⟨nextId (s.users.map (·.id)), role, name, email, password⟩ : User)]).filter
      (fun u => decide (u.email = email ∧ u.password_hash = password))).map
        (fun u => (⟨u.id, u.role, u.name, u.email⟩ : UserView))
      = [⟨nextId (s.users.map (·.id)), role, name, email⟩] := by
    rw [List.filter_append, hf2]
    simp
  unfold postAuthLogin
  rw [if_neg h1]
  simp only [hrows]

/-- Witness for C7: the first registration on an empty store. -/
theorem register_then_login_witness :
    ∃ id : Nat,
      postAuthRegister Store.empty "student" "S" "s@example.org" "pw2"
          = ({ Store.empty with
                users := Store.empty.users ++ [⟨id, "student", "S", "s@example.org", "pw2"⟩] },
              .json ⟨id, "student", "S", "s@example.org"⟩)
        ∧ postAuthLogin (postAuthRegister Store.empty "student" "S" "s@example.org" "pw2").1
            "s@example.org" "pw2"
          = ((postAuthRegister Store.empty "student" "S" "s@example.org" "pw2").1,
              .json ⟨id, "student", "S", "s@example.org"⟩) :=
  register_then_login Store.empty "student" "S" "s@example.org" "pw2"
    (by decide) (by decide) (by decide) (by decide) (by decide)

/-! ## Group listing -/

theorem le_foldr_max (l : List Nat) (x : Nat) (h : x ∈ l) : x ≤ l.foldr max 0 := by
  induction l with
  | nil => cases h
  | cons a l ih =>
    simp only [List.foldr_cons]
    rcases List.mem_cons.mp h with h | h
    · subst h; exact le_max_left _ _
    · exact le_trans (ih h) (le_max_right _ _)

/-- A fresh key: `nextId` is none of the keys present. -/
theorem nextId_not_mem (l : List Nat) : nextId l ∉ l := by
  intro h
  have := le_foldr_max l _ h
  unfold nextId at this
  omega

/-- Creating a group keeps the keys of `groups` distinct. -/
theorem postGroups_nodup (s : Store) (tutorId : Nat) (name code : String)
    (term : Option String) (h : (s.groups.map (·.id)).Nodup) :
    ((postGroups s tutorId name code term).1.groups.map (·.id)).Nodup := by
  unfold postGroups
  simp only
  split_ifs
  · exact h
  · exact h
  · unfold insertGroup
    split_ifs
    · exact h
    · simp only [List.map_append, List.map_cons, List.map_nil]
      rw [List.nodup_append]
      refine ⟨h, List.nodup_singleton _, ?_⟩
      intro a ha hb
      rw [List.mem_singleton] at hb
      subst hb
      exact nextId_not_mem _ ha

theorem selectMembers_group_mem (s : Store) (ids : List Nat) (m : MemberRow)
    (h : m ∈ selectMembers s ids) :
    m.group_id ∈ ids ∧ ∃ gm ∈ s.group_members, gm.group_id = m.group_id := by
  unfold selectMembers at h
  rw [List.mem_flatMap] at h
  obtain ⟨gm, hgm, hm⟩ := h
  split_ifs at hm with hin
  · rw [List.mem_map] at hm
    obtain ⟨u, _, rfl⟩ := hm
    exact ⟨hin, gm, hgm, rfl⟩
  · cases hm

theorem selectMembers_nil (s : Store) : selectMembers s [] = [] := by
  unfold selectMembers
  simp

theorem getGroups_eq (s : Store) (tutorId : Nat) :
    getGroups s (some tutorId)
      = (s, .json (withCounts (selectGroupsOfTutor s tutorId)
          (selectMembers s ((selectGroupsOfTutor s tutorId).map (·.id))))) := by
  unfold getGroups
  simp only
  split_ifs with h
  · rfl
  · have : (selectGroupsOfTutor s tutorId).map (·.id) = [] := by
      rw [← List.length_eq_zero]
      simpa using h
    rw [this, selectMembers_nil]

/-- C8. `ListGroupsForTutor` answers with the tutor's groups, each once and in
table order; the students of a listed group are the (id, name) pairs of the
fetched membership rows with that group id, in fetch order; every fetched
membership row matches exactly one listed group; a group without membership
rows gets the empty list; and a user with a membership row in one of the
tutor's groups is in that group's list. -/
theorem getGroups_listing (s : Store) (tutorId : Nat)
    (hkey : (s.groups.map (·.id)).Nodup) :
    ∃ views : List GroupView,
      getGroups s (some tutorId) = (s, .json views)
      ∧ views.map (fun v => (v.id, v.code, v.name))
          = (s.groups.filter (fun g => decide (g.tutor_id = tutorId))).map
              (fun g => (g.id, g.code, g.name))
      ∧ (∀ v ∈ views, v.students
          = ((selectMembers s ((selectGroupsOfTutor s tutorId).map (·.id))).filter
              (fun m => decide (m.group_id = v.id))).map (fun m => ⟨m.studentId, m.name⟩))
      ∧ (∀ m ∈ selectMembers s ((selectGroupsOfTutor s tutorId).map (·.id)),
          (views.filter (fun v => decide (v.id = m.group_id))).length = 1)
      ∧ (∀ v ∈ views, (∀ gm ∈ s.group_members, gm.group_id ≠ v.id) → v.students = [])
      ∧ (∀ g ∈ s.groups, g.tutor_id = tutorId → ∀ gm ∈ s.group_members, gm.group_id = g.id →
          ∀ u ∈ s.users, u.id = gm.student_id →
            ∃ v ∈ views, v.id = g.id ∧ (⟨u.id, u.name⟩ : StudentRef) ∈ v.students) := by
  refine ⟨_, getGroups_eq s tutorId, ?_, ?_, ?_, ?_, ?_⟩
  · unfold withCounts selectGroupsOfTutor
    rw [List.map_map]
    rfl
  · intro v hv
    unfold withCounts at hv
    rw [List.mem_map] at hv
    obtain ⟨g, _, rfl⟩ := hv
    rfl
  · intro m hm
    have hin := (selectMembers_group_mem s _ m hm).1
    have hnd : ((selectGroupsOfTutor s tutorId).map (·.id)).Nodup := by
      unfold selectGroupsOfTutor
      exact hkey.sublist ((List.filter_sublist _).map _)
    have hcount : ((selectGroupsOfTutor s tutorId).map (·.id)).count m.group_id = 1 :=
      List.count_eq_one_of_mem hnd hin
    rw [← hcount]
    unfold withCounts
    rw [List.count_eq_countP, List.countP_map, ← List.countP_eq_length_filter, List.countP_map]
    apply List.countP_congr
    intro g _
    simp
  · intro v hv hno
    unfold withCounts at hv
    rw [List.mem_map] at hv
    obtain ⟨g, _, rfl⟩ := hv
    simp only [List.map_eq_nil_iff, List.filter_eq_nil_iff]
    intro m hm
    obtain ⟨gm, hgm, hgid⟩ := (selectMembers_group_mem s _ m hm).2
    have := hno gm hgm
    simp only at this
    simp only [decide_eq_true_eq]
    intro hc
    exact this (hgid.trans hc)
  · intro g hg htutor gm hgm hgid u hu huid
    have hgsel : g ∈ selectGroupsOfTutor s tutorId := by
      unfold selectGroupsOfTutor
      rw [List.mem_filter]
      exact ⟨hg, by simpa using htutor⟩
    refine ⟨_, List.mem_map.mpr ⟨g, hgsel, rfl⟩, rfl, ?_⟩
    simp only [List.mem_map, List.mem_filter, decide_eq_true_eq]
    refine ⟨⟨gm.group_id, u.id, u.name⟩, ⟨?_, hgid⟩, rfl⟩
    unfold selectMembers
    rw [List.mem_flatMap]
    refine ⟨gm, hgm, ?_⟩
    have hin : gm.group_id ∈ (selectGroupsOfTutor s tutorId).map (·.id) := by
      rw [hgid]
      exact List.mem_map.mpr ⟨g, hgsel, rfl⟩
    rw [if_pos hin, List.mem_map]
    exact ⟨u, List.mem_filter.mpr ⟨hu, by simpa using huid⟩, rfl⟩

/-- Witness for C8: the listing of tutor 1 in `twoGroupStore`. -/
theorem getGroups_listing_witness :
    (twoGroupStore.groups.map (·.id)).Nodup
      ∧ ∃ views : List GroupView,
          getGroups twoGroupStore (some 1) = (twoGroupStore, .json views)
            ∧ views.map (fun v => (v.id, v.code, v.name)) = [(1, "ABC", "G1"), (2, "DEF", "G2")]
            ∧ ∀ v ∈ views, v.students = [⟨2, "S"⟩] := by
  have hkey : (twoGroupStore.groups.map (·.id)).Nodup := by decide
  obtain ⟨views, h1, h2, h3, -⟩ := getGroups_listing twoGroupStore 1 hkey
  refine ⟨hkey, views, h1, ?_, ?_⟩
  · rw [h2]; decide
  · have hv : views = [⟨1, "ABC", "G1", [⟨2, "S"⟩]⟩, ⟨2, "DEF", "G2", [⟨2, "S"⟩]⟩] := by
      have h0 : getGroups twoGroupStore (some 1)
          = (twoGroupStore, .json [⟨1, "ABC", "G1", [⟨2, "S"⟩]⟩, ⟨2, "DEF", "G2", [⟨2, "S"⟩]⟩]) := by
        decide
      rw [h0] at h1
      injection h1 with _ h1
      injection h1 with h1
      exact h1.symm
    subst hv
    decide

/-! ## Alert listing -/

/-- C9 as amended. `GetAlerts` answers 200 exactly when at least one of
`studentId` and `tutorId` is supplied, and 400 when neither is; when
`studentId` is supplied the answer is the student's own listing, whether or
not `tutorId` is supplied too. -/
theorem getAlerts_served (s : Store) (studentId tutorId : Option Nat) :
    ((getAlerts s studentId tutorId).2.code = some 200
        ↔ (studentId.isSome = true ∨ tutorId.isSome = true))
      ∧ ((getAlerts s studentId tutorId).2 = .status 400
        ↔ (studentId = none ∧ tutorId = none))
      ∧ (∀ i : Nat, getAlerts s (some i) tutorId = (s, .json (selectAlertsOfStudent s i)))
      ∧ (getAlerts s studentId tutorId).1 = s := by
  refine ⟨?_, ?_, ?_, ?_⟩
  · cases studentId with
    | some i => simp [getAlerts, Outcome.code]
    | none =>
      cases tutorId with
      | some t =>
        unfold getAlerts
        simp only
        split_ifs <;> simp [Outcome.code]
      | none => simp [getAlerts, Outcome.code]
  · cases studentId with
    | some i => simp [getAlerts]
    | none =>
      cases tutorId with
      | some t =>
        unfold getAlerts
        simp only
        split_ifs <;> simp
      | none => simp [getAlerts]
  · intro i
    rfl
  · cases studentId with
    | some i => rfl
    | none =>
      cases tutorId with
      | some t =>
        unfold getAlerts
        simp only
        split_ifs <;> rfl
      | none => rfl

/-- C9, counterexample: with both `studentId` and `tutorId` supplied the
request is served with status 200 (the listing of student 2, here the alert of
a "muyMal" submission), although not exactly one of the two is present. -/
theorem getAlerts_both_supplied :
    (getAlerts (postMood utcServer 0 twoGroupStore 2 "muyMal" none none).1
        (some 2) (some 1)).2
        = .json [⟨1, "mood", "high", "Ánimo bajo reportado", 0, none⟩]
      ∧ (getAlerts (postMood utcServer 0 twoGroupStore 2 "muyMal" none none).1
          (some 2) (some 1)).2.code = some 200
      ∧ ¬ (((some 2 : Option Nat).isSome = true ∧ (some 1 : Option Nat).isSome = false)
          ∨ ((some 2 : Option Nat).isSome = false ∧ (some 1 : Option Nat).isSome = true)) := by
  decide

/-! ## What the tutor listing of justifications does guarantee -/

theorem orderByCreatedDesc_sorted {α : Type} (createdAt : α → Int) (rows : List α) :
    (orderByCreatedDesc createdAt rows).Pairwise (fun a b => createdAt b ≤ createdAt a) := by
  haveI : IsTotal α (fun a b => createdAt b ≤ createdAt a) := ⟨fun a b => le_total _ _⟩
  haveI : IsTrans α (fun a b => createdAt b ≤ createdAt a) :=
    ⟨fun _ _ _ h1 h2 => le_trans h2 h1⟩
  exact List.sorted_insertionSort _ rows

theorem orderByCreatedDesc_perm {α : Type} (createdAt : α → Int) (rows : List α) :
    (orderByCreatedDesc createdAt rows).Perm rows :=
  List.perm_insertionSort _ rows

/-- A tutor who owns no group gets the empty listing, not an error. -/
theorem getJustifications_no_groups (s : Store) (tutorId : Nat)
    (h : ∀ g ∈ s.groups, g.tutor_id ≠ tutorId) :
    getJustifications s none (some tutorId) = (s, .json []) := by
  have hnil : selectGroupsOfTutor s tutorId = [] := by
    unfold selectGroupsOfTutor
    rw [List.filter_eq_nil_iff]
    intro g hg
    simpa using h g hg
  unfold getJustifications
  simp [hnil]

/-- The tutor listing is in descending `created_at` order, and its rows are
exactly the combinations of a justification, the user row of its student and a
membership row of that student in one of the tutor's groups. -/
theorem getJustifications_rows (s : Store) (tutorId : Nat) :
    ∃ rows : List JustificationView,
      getJustifications s none (some tutorId) = (s, .json rows)
      ∧ rows.Pairwise (fun a b => b.createdAt ≤ a.createdAt)
      ∧ ∀ r : JustificationView, r ∈ rows ↔
          ∃ j ∈ s.justifications, ∃ u ∈ s.users, ∃ gm ∈ s.group_members,
            u.id = j.student_id ∧ gm.student_id = j.student_id
              ∧ (∃ g ∈ s.groups, g.tutor_id = tutorId ∧ g.id = gm.group_id)
              ∧ r = ⟨j.id, j.group_id, j.type, j.evidence_url, j.status, j.created_at,
                      some u.name, some u.id⟩ := by
  have hids : ∀ x : Nat, x ∈ (selectGroupsOfTutor s tutorId).map (·.id)
      ↔ ∃ g ∈ s.groups, g.tutor_id = tutorId ∧ g.id = x := by
    intro x
    unfold selectGroupsOfTutor
    simp only [List.mem_map, List.mem_filter, decide_eq_true_eq]
    constructor
    · rintro ⟨g, ⟨hg, ht⟩, rfl⟩; exact ⟨g, hg, ht, rfl⟩
    · rintro ⟨g, hg, ht, rfl⟩; exact ⟨g, ⟨hg, ht⟩, rfl⟩
  by_cases hlen : ((selectGroupsOfTutor s tutorId).map (·.id)).length = 0
  · refine ⟨[], ?_, List.Pairwise.nil, ?_⟩
    · unfold getJustifications
      simp only [hlen, if_true]
    · intro r
      have hnil : (selectGroupsOfTutor s tutorId).map (·.id) = [] := List.length_eq_zero.mp hlen
      constructor
      · intro h; cases h
      · rintro ⟨j, _, u, _, gm, _, _, _, hg, _⟩
        have := (hids gm.group_id).mpr hg
        rw [hnil] at this
        cases this
  · refine ⟨selectJustificationsOfGroups s ((selectGroupsOfTutor s tutorId).map (·.id)), ?_,
      ?_, ?_⟩
    · unfold getJustifications
      simp only [hlen, if_false]
    · exact orderByCreatedDesc_sorted _ _
    · intro r
      unfold selectJustificationsOfGroups
      rw [(orderByCreatedDesc_perm _ _).mem_iff]
      simp only [List.mem_flatMap, List.mem_map, List.mem_filter, decide_eq_true_eq, hids]
      constructor
      · rintro ⟨j, hj, u, ⟨hu, huid⟩, gm, ⟨hgm, hst, hg⟩, rfl⟩
        exact ⟨j, hj, u, hu, gm, hgm, huid, hst, hg, rfl⟩
      · rintro ⟨j, hj, u, hu, gm, hgm, huid, hst, hg, rfl⟩
        exact ⟨j, hj, u, ⟨hu, huid⟩, gm, ⟨hgm, hst, hg⟩, rfl⟩

end Backend
